import Mathlib

/-!
Verification of the Research Paper Simplifier service (`src/main.py`).

Texts are modelled as `List Char`. Python's `str.lower()` is modelled as
per-character ASCII lowercasing (`Char.toLower`), `str.find` with its
start-argument clamping, slicing with Python's index clamping, and
`str.strip()` as removal of leading and trailing whitespace characters.
The remote LLM capability is modelled as an explicit input: a summary call
yields `Except err ok` (exception text or content), a structured call
yields `Option Json` (`none` models the API call raising or `json.loads`
failing to parse the returned text).

All definitions are executable; none of the modelled Python operations can
raise, so the embedding is total.
-/

set_option autoImplicit false
set_option linter.unusedVariables false

namespace ResearchSimplifier

/-- The start marker searched by the abstract heuristic (`start_marker`). -/
def abstractMarker : List Char := "abstract".data

/-- The end marker searched by the abstract heuristic (`end_marker`). -/
def introMarker : List Char := "introduction".data

/-- Initial value of `raw_abstract`: the sentinel kept when "abstract" is not found. -/
def sentinelMsg : List Char := "Could not automatically find abstract.".data

/-- Search for `sub` in `s`, where `i` is the absolute position of the head of
`s` in the original string; returns the absolute position of the first match.
This is the core loop of Python's `str.find`. -/
def strFindAux (sub : List Char) : List Char → Nat → Option Nat
  | [], i => if sub.isPrefixOf [] then some i else none
  | c :: rest, i =>
    if sub.isPrefixOf (c :: rest) then some i else strFindAux sub rest (i + 1)

/-- Adjustment Python applies to the start argument of `str.find`: a negative
start counts from the end, clamped below at 0. -/
def pyStart (n : Nat) (start : Int) : Nat :=
  if start < 0 then ((n : Int) + start).toNat else start.toNat

/-- Python's `s.find(sub, start)`: the start is adjusted by `pyStart`, a start
beyond the length yields `-1`; otherwise the least index `≥ start` at which
`sub` occurs, or `-1` when there is none. -/
def pyFind (s sub : List Char) (start : Int) : Int :=
  if s.length < pyStart s.length start then -1
  else
    match strFindAux sub (s.drop (pyStart s.length start)) (pyStart s.length start) with
    | some k => (k : Int)
    | none => -1

/-- Clamping Python applies to a slice bound: into `[0, len]`, negative bounds
counting from the end. -/
def pyBound (n : Nat) (a : Int) : Nat :=
  (if a < 0 then max ((n : Int) + a) 0 else min a (n : Int)).toNat

/-- Python's slice `s[a:b]` for integer bounds. -/
def pySliceI (s : List Char) (a b : Int) : List Char :=
  (s.take (pyBound s.length b)).drop (pyBound s.length a)

/-- Python's `s.strip()`: remove leading and trailing whitespace. -/
def pyStrip (s : List Char) : List Char :=
  ((s.dropWhile Char.isWhitespace).reverse.dropWhile Char.isWhitespace).reverse

/-- `sub` occurs in `s` starting at position `k`. -/
def occursAt (sub s : List Char) (k : Nat) : Prop :=
  sub.isPrefixOf (s.drop k) = true

instance (sub s : List Char) (k : Nat) : Decidable (occursAt sub s k) := by
  unfold occursAt; infer_instance

/-- `k` is the first position `≥ b` at which `sub` occurs in `s`. -/
def firstOccurFrom (sub s : List Char) (b k : Nat) : Prop :=
  b ≤ k ∧ occursAt sub s k ∧ ∀ d, d < k → b ≤ d → ¬ occursAt sub s d

instance (sub s : List Char) (b k : Nat) : Decidable (firstOccurFrom sub s b k) := by
  unfold firstOccurFrom; infer_instance

/-- The abstract-extraction heuristic of `upload_paper` (`src/main.py` lines
53-64): lowercase the text, find `"abstract"`, find `"introduction"` from that
position, and slice/strip accordingly; keep the sentinel when `"abstract"` is
absent.  Every operation in the Python `try` block is total on `str`, so the
`except` arm (first 3000 characters) has no counterpart here. -/
def extract_abstract (full_text : List Char) : List Char :=
  let lowered := full_text.map Char.toLower
  let start_index : Int := pyFind lowered abstractMarker 0
  let end_index : Int := pyFind lowered introMarker start_index
  if start_index ≠ -1 ∧ end_index ≠ -1 then
    pyStrip (pySliceI full_text (start_index + (abstractMarker.length : Int)) end_index)
  else if start_index ≠ -1 then
    pyStrip (pySliceI full_text (start_index + (abstractMarker.length : Int)) (start_index + 3000))
  else
    sentinelMsg

/-- A text with 3100 non-whitespace characters between the two markers, used
to exhibit the unbounded between-markers branch. -/
def bigText : List Char :=
  "abstract".data ++ (List.replicate 3100 'x' ++ "introduction".data)

/-- JSON values: the model of a successfully parsed `json.loads` result. -/
inductive Json where
  | null : Json
  | bool (b : Bool) : Json
  | num (n : Int) : Json
  | str (s : List Char) : Json
  | arr (items : List Json) : Json
  | obj (fields : List (List Char × Json)) : Json

/-- Python `dict.get` on the model of a JSON object. -/
def lookupKey : List (List Char × Json) → List Char → Option Json
  | [], _ => none
  | (k1, v) :: rest, k => if k1 = k then some v else lookupKey rest k

def questionsKey : List Char := "questions".data

def flashcardsKey : List Char := "flashcards".data

/-- `generate_quiz_from_text` (`src/main.py` lines 106-149).  The prompt built
from `text`, `num_questions` and `difficulty` only influences the remote
response, which is passed explicitly: `none` models the API call raising or
`json.loads` failing; a non-object response makes `.get` raise, which the
`except` arm turns into `[]`. -/
def generate_quiz_from_text (clientOk : Bool) (text : List Char) (num_questions : Nat)
    (difficulty : List Char) (response : Option Json) : List Json :=
  if clientOk = false then []
  else
    match response with
    | none => []
    | some (Json.obj fields) =>
      match lookupKey fields questionsKey with
      | none => []
      | some (Json.arr q_list) => q_list
      | some _ => []
    | some _ => []

/-- `generate_flashcards_from_text` (`src/main.py` lines 183-225), modelled
exactly like the quiz variant but with the "flashcards" key. -/
def generate_flashcards_from_text (clientOk : Bool) (text : List Char) (num_cards : Nat)
    (response : Option Json) : List Json :=
  if clientOk = false then []
  else
    match response with
    | none => []
    | some (Json.obj fields) =>
      match lookupKey fields flashcardsKey with
      | none => []
      | some (Json.arr card_list) => card_list
      | some _ => []
    | some _ => []

def quizErrorMsg : List Char :=
  "Failed to generate quiz from the model. It might be too busy or the abstract was too complex. Please try again.".data

def flashcardErrorMsg : List Char :=
  "Failed to generate flashcards from the model. It might be too busy or the abstract was too complex. Please try again.".data

/-- The template context rendered by the quiz route. -/
structure QuizView where
  questions : List Json
  error : Option (List Char)

/-- The template context rendered by the flashcards route. -/
structure FlashcardView where
  flashcards : List Json
  error : Option (List Char)

/-- The `/quiz` handler `get_quiz_questions` (`src/main.py` lines 153-178). -/
def get_quiz_questions (clientOk : Bool) (abstract difficulty : List Char)
    (num_questions : Nat) (response : Option Json) : QuizView :=
  let questions := generate_quiz_from_text clientOk abstract num_questions difficulty response
  if questions.isEmpty then ⟨[], some quizErrorMsg⟩
  else ⟨questions, none⟩

/-- The `/flashcards` handler `get_flashcards` (`src/main.py` lines 229-252). -/
def get_flashcards (clientOk : Bool) (abstract : List Char) (num_cards : Nat)
    (response : Option Json) : FlashcardView :=
  let flashcards := generate_flashcards_from_text clientOk abstract num_cards response
  if flashcards.isEmpty then ⟨[], some flashcardErrorMsg⟩
  else ⟨flashcards, none⟩

def noClientSummaryMsg : List Char :=
  "Mistral API client not configured. Please set MISTRAL_API_KEY in .env".data

def apiErrorMsgStart : List Char := "Mistral API error: ".data

/-- The summary computation of `upload_paper` (`src/main.py` lines 66-83):
with a configured client the remote either returns content or raises `e`
(rendered into the error string); without one the placeholder is used. -/
def computeSummary (clientOk : Bool) (remote : Except (List Char) (List Char))
    (raw_abstract : List Char) : List Char :=
  if clientOk then
    match remote with
    | Except.ok content => content
    | Except.error e => apiErrorMsgStart ++ e
  else noClientSummaryMsg

/-- Responses of the upload handler: the results page or a redirect to `/`. -/
inductive UploadResponse where
  | results (filename summary raw_abstract : List Char) : UploadResponse
  | redirectHome : UploadResponse

/-- The `/upload` handler `upload_paper` (`src/main.py` lines 37-100) as a
state transformer on the temporary file.  The second component of the result
is whether `temp_<filename>` still exists when the handler returns.  `writeOk`
is whether saving the upload succeeds (`tempCreatedOnFailedWrite`: whether the
failed write still created the file), `extracted` is the text-extraction
outcome (`none` models `fitz` raising), and `remote` the summary call.  The
`finally` clause removes the file when it exists, on both the normal and the
`except` (redirect) path. -/
def upload_paper (filename : List Char) (writeOk : Bool) (tempCreatedOnFailedWrite : Bool)
    (extracted : Option (List Char)) (clientOk : Bool)
    (remote : Except (List Char) (List Char)) : UploadResponse × Bool :=
  let tryResult : Option UploadResponse × Bool :=
    if writeOk = false then (none, tempCreatedOnFailedWrite)
    else
      match extracted with
      | none => (none, true)
      | some full_text =>
        (some (UploadResponse.results filename
          (computeSummary clientOk remote (extract_abstract full_text))
          (extract_abstract full_text)), true)
  let response : UploadResponse :=
    match tryResult.1 with
    | some page => page
    | none => UploadResponse.redirectHome
  (response, if tryResult.2 then false else tryResult.2)

def questionKey : List Char := "question".data

def optionsKey : List Char := "options".data

def answerKey : List Char := "answer".data

def explanationKey : List Char := "explanation".data

def isJsonStr : Json → Bool
  | Json.str _ => true
  | _ => false

/-- A quiz entity of the shape the spec's data model requires: a question
string, exactly 4 option strings, an answer in {A,B,C,D}, an explanation. -/
def validQuizQuestion : Json → Bool
  | Json.obj fields =>
    (match lookupKey fields questionKey with
      | some (Json.str _) => true
      | _ => false) &&
    (match lookupKey fields optionsKey with
      | some (Json.arr opts) => opts.length == 4 && opts.all isJsonStr
      | _ => false) &&
    (match lookupKey fields answerKey with
      | some (Json.str a) =>
        (a == "A".data) || (a == "B".data) || (a == "C".data) || (a == "D".data)
      | _ => false) &&
    (match lookupKey fields explanationKey with
      | some (Json.str _) => true
      | _ => false)
  | _ => false

/-- Structural failure of a quiz response: parsing failed, the payload is not
an object, or the "questions" key is absent or holds a non-sequence. -/
def quizStructuralFailure : Option Json → Bool
  | none => true
  | some (Json.obj fields) =>
    (match lookupKey fields questionsKey with
      | some (Json.arr _) => false
      | _ => true)
  | some _ => true

/-- Structural failure of a flashcards response. -/
def flashcardStructuralFailure : Option Json → Bool
  | none => true
  | some (Json.obj fields) =>
    (match lookupKey fields flashcardsKey with
      | some (Json.arr _) => false
      | _ => true)
  | some _ => true

/-- A concrete well-formed quiz entity, used by witnesses. -/
def sampleQuestion : Json :=
  Json.obj [(questionKey, Json.str "What is studied?".data),
    (optionsKey, Json.arr [Json.str "W".data, Json.str "X".data,
      Json.str "Y".data, Json.str "Z".data]),
    (answerKey, Json.str "A".data),
    (explanationKey, Json.str "Because.".data)]

/-- Soundness of the find loop: a returned index is at least the base, carries
an occurrence, and is the least such position. -/
theorem strFindAux_some {sub s : List Char} {base j : Nat}
    (h : strFindAux sub s base = some j) :
    base ≤ j ∧ sub.isPrefixOf (s.drop (j - base)) = true ∧
      ∀ d, d < j - base → sub.isPrefixOf (s.drop d) = false := by
  induction s generalizing base with
  | nil =>
    rw [strFindAux] at h
    split at h
    next hp =>
      have hbj : base = j := by injection h
      subst hbj
      refine ⟨le_refl _, ?_, ?_⟩
      · rw [List.drop_nil]; exact hp
      · intro d hd; omega
    next hp => exact Option.noConfusion h
  | cons c rest ih =>
    rw [strFindAux] at h
    split at h
    next hp =>
      have hbj : base = j := by injection h
      subst hbj
      refine ⟨le_refl _, ?_, ?_⟩
      · rw [Nat.sub_self, List.drop_zero]; exact hp
      · intro d hd; omega
    next hp =>
      have hp' : sub.isPrefixOf (c :: rest) = false := Bool.eq_false_iff.mpr hp
      obtain ⟨h1, h2, h3⟩ := ih h
      refine ⟨by omega, ?_, ?_⟩
      · have hdrop : (c :: rest).drop (j - base) = rest.drop (j - (base + 1)) := by
          have hj : j - base = (j - (base + 1)) + 1 := by omega
          rw [hj, List.drop_succ_cons]
        rw [hdrop]; exact h2
      · intro d hd
        match d with
        | 0 => rw [List.drop_zero]; exact hp'
        | d' + 1 => rw [List.drop_succ_cons]; exact h3 d' (by omega)

/-- Completeness of the find loop: the least occurrence position is returned
(shifted by the base offset). -/
theorem strFindAux_min {sub s : List Char} (base k : Nat)
    (hk : sub.isPrefixOf (s.drop k) = true)
    (hmin : ∀ d, d < k → sub.isPrefixOf (s.drop d) = false) :
    strFindAux sub s base = some (base + k) := by
  induction s generalizing base k with
  | nil =>
    have hk0 : k = 0 := by
      by_contra hne
      have h0 := hmin 0 (by omega)
      rw [List.drop_zero] at h0
      rw [List.drop_nil] at hk
      rw [hk] at h0
      exact absurd h0 (by simp)
    subst hk0
    rw [List.drop_nil] at hk
    simp [strFindAux, hk]
  | cons c rest ih =>
    match k with
    | 0 =>
      rw [List.drop_zero] at hk
      simp [strFindAux, hk]
    | k' + 1 =>
      have h0 : sub.isPrefixOf (c :: rest) = false := by
        have := hmin 0 (by omega)
        rwa [List.drop_zero] at this
      rw [strFindAux, if_neg (by simp [h0])]
      have hk' : sub.isPrefixOf (rest.drop k') = true := by
        rwa [List.drop_succ_cons] at hk
      have hmin' : ∀ d, d < k' → sub.isPrefixOf (rest.drop d) = false := by
        intro d hd
        have := hmin (d + 1) (by omega)
        rwa [List.drop_succ_cons] at this
      rw [ih (base + 1) k' hk' hmin']
      congr 1
      omega

theorem pyStart_natCast (n b : Nat) : pyStart n (b : Int) = b := by
  unfold pyStart
  rw [if_neg (by omega), Int.toNat_natCast]

theorem pyBound_natCast (n a : Nat) : pyBound n (a : Int) = min a n := by
  unfold pyBound
  rw [if_neg (by omega), ← Nat.cast_min, Int.toNat_natCast]

/-- An occurrence of a nonempty pattern fits entirely inside the string. -/
theorem occursAt_length_le {sub s : List Char} {k : Nat} (hsub : sub ≠ [])
    (h : occursAt sub s k) : k + sub.length ≤ s.length := by
  unfold occursAt at h
  by_cases hk : k ≤ s.length
  · have hpre : sub <+: s.drop k := List.isPrefixOf_iff_prefix.mp h
    have hlen := hpre.length_le
    rw [List.length_drop] at hlen
    omega
  · exfalso
    rw [List.drop_eq_nil_of_le (by omega)] at h
    match sub, hsub with
    | c :: cs, _ => exact absurd h (by simp [List.isPrefixOf])

/-- `pyFind` from a nonnegative in-range base returns the first occurrence
position at or after that base. -/
theorem pyFind_firstOccurFrom {s sub : List Char} {b k : Nat}
    (hb : b ≤ s.length) (h : firstOccurFrom sub s b k) :
    pyFind s sub (b : Int) = (k : Int) := by
  obtain ⟨hbk, hk, hmin⟩ := h
  unfold pyFind
  rw [pyStart_natCast, if_neg (by omega)]
  have hfind : strFindAux sub (s.drop b) b = some (b + (k - b)) := by
    apply strFindAux_min
    · rw [List.drop_drop]
      have hbk2 : b + (k - b) = k := by omega
      rw [hbk2]
      exact hk
    · intro d hd
      rw [List.drop_drop]
      have hnot := hmin (b + d) (by omega) (by omega)
      exact Bool.eq_false_iff.mpr hnot
  rw [hfind]
  have hbk3 : b + (k - b) = k := by omega
  rw [hbk3]

/-- When a nonempty pattern does not occur anywhere, `pyFind` from 0 is `-1`. -/
theorem pyFind_eq_neg_one {s sub : List Char} (hsub : sub ≠ [])
    (h : ∀ kk, kk < s.length → ¬ occursAt sub s kk) :
    pyFind s sub 0 = -1 := by
  unfold pyFind
  have h0 : pyStart s.length 0 = 0 := pyStart_natCast s.length 0
  rw [h0, if_neg (by omega), List.drop_zero]
  cases hfa : strFindAux sub s 0 with
  | none => rfl
  | some j =>
    exfalso
    obtain ⟨h1, h2, h3⟩ := strFindAux_some hfa
    rw [Nat.sub_zero] at h2
    have hj : j < s.length := by
      by_contra hge
      rw [List.drop_eq_nil_of_le (by omega)] at h2
      match sub, hsub with
      | c :: cs, _ => exact absurd h2 (by simp [List.isPrefixOf])
    exact h j hj h2

/-- The end marker cannot begin within the eight characters of a start-marker
occurrence: every such suffix starts with a letter of "abstract", not 'i'. -/
theorem intro_not_prefix_within (rest : List Char) :
    ∀ e, e < 8 → introMarker.isPrefixOf ((abstractMarker ++ rest).drop e) = false := by
  intro e he
  interval_cases e <;> rfl

/-- Core fact for the both-markers-found branch: if `i` is the first
occurrence of "abstract" in the lowercased text and `j` the first occurrence
of "introduction" at or after the end of that marker, the locator returns the
text strictly between them, stripped. -/
theorem extract_abstract_between {t : List Char} {i j : Nat}
    (hi : firstOccurFrom abstractMarker (t.map Char.toLower) 0 i)
    (hj : firstOccurFrom introMarker (t.map Char.toLower) (i + 8) j) :
    extract_abstract t = pyStrip ((t.take j).drop (i + 8)) := by
  have hlen : (t.map Char.toLower).length = t.length := by simp
  have hi8 : i + 8 ≤ t.length := by
    have := occursAt_length_le (by decide) hi.2.1
    rw [hlen] at this
    have h8 : abstractMarker.length = 8 := rfl
    omega
  have hj12 : j + 12 ≤ t.length := by
    have := occursAt_length_le (by decide) hj.2.1
    rw [hlen] at this
    have h12 : introMarker.length = 12 := rfl
    omega
  have habs : pyFind (t.map Char.toLower) abstractMarker 0 = (i : Int) := by
    have h0 := pyFind_firstOccurFrom (by omega : (0 : Nat) ≤ (t.map Char.toLower).length) hi
    rwa [Nat.cast_zero] at h0
  have hjmin : firstOccurFrom introMarker (t.map Char.toLower) i j := by
    obtain ⟨hj1, hj2, hj3⟩ := hj
    refine ⟨by omega, hj2, ?_⟩
    intro d hd hid
    by_cases hd8 : d < i + 8
    · intro hocc
      unfold occursAt at hocc
      obtain ⟨rest, hrest⟩ := List.isPrefixOf_iff_prefix.mp hi.2.1
      have hdd : (t.map Char.toLower).drop d = (abstractMarker ++ rest).drop (d - i) := by
        rw [hrest, List.drop_drop]
        congr 1
        omega
      rw [hdd] at hocc
      rw [intro_not_prefix_within rest (d - i) (by omega)] at hocc
      exact Bool.noConfusion hocc
    · exact hj3 d hd (by omega)
  have hintro : pyFind (t.map Char.toLower) introMarker (i : Int) = (j : Int) :=
    pyFind_firstOccurFrom (by omega) hjmin
  simp only [extract_abstract]
  rw [habs, hintro]
  rw [if_pos ⟨by omega, by omega⟩]
  have hcast : (i : Int) + (abstractMarker.length : Int) = ((i + 8 : Nat) : Int) := by
    have h8 : abstractMarker.length = 8 := rfl
    rw [h8]
    push_cast
    ring
  unfold pySliceI
  rw [hcast, pyBound_natCast, pyBound_natCast]
  rw [min_eq_left (by omega), min_eq_left (by omega)]

/-- When "abstract" does not occur in the lowercased text, the locator keeps
the sentinel, whatever happens to the end marker. -/
theorem extract_abstract_sentinel {t : List Char}
    (h : ∀ k, k < t.length → ¬ occursAt abstractMarker (t.map Char.toLower) k) :
    extract_abstract t = sentinelMsg := by
  have hlen : (t.map Char.toLower).length = t.length := by simp
  have hfind : pyFind (t.map Char.toLower) abstractMarker 0 = -1 := by
    apply pyFind_eq_neg_one (by decide)
    intro kk hkk
    exact h kk (by omega)
  simp only [extract_abstract]
  rw [hfind]
  simp

/-- `pyFind` returns `-1` or a natural index. -/
theorem pyFind_cases (s sub : List Char) (st : Int) :
    pyFind s sub st = -1 ∨ ∃ k : Nat, pyFind s sub st = (k : Int) := by
  unfold pyFind
  split
  · exact Or.inl rfl
  · cases hfa : strFindAux sub (s.drop (pyStart s.length st)) (pyStart s.length st) with
    | none => exact Or.inl rfl
    | some k => exact Or.inr ⟨k, rfl⟩

/-- Stripping never lengthens a string. -/
theorem pyStrip_length_le (s : List Char) : (pyStrip s).length ≤ s.length := by
  unfold pyStrip
  rw [List.length_reverse]
  refine le_trans ((List.dropWhile_suffix Char.isWhitespace).length_le) ?_
  rw [List.length_reverse]
  exact (List.dropWhile_suffix Char.isWhitespace).length_le

theorem dropWhile_ws_replicate (n : Nat) {c : Char} (hc : c.isWhitespace = false) :
    List.dropWhile Char.isWhitespace (List.replicate n c) = List.replicate n c := by
  cases n with
  | zero => rfl
  | succ m =>
    rw [List.replicate_succ, List.dropWhile_cons]
    rw [if_neg (by simp [hc])]

/-- Stripping a run of a non-whitespace character leaves it unchanged. -/
theorem pyStrip_replicate {n : Nat} {c : Char} (hc : c.isWhitespace = false) :
    pyStrip (List.replicate n c) = List.replicate n c := by
  unfold pyStrip
  rw [dropWhile_ws_replicate n hc, List.reverse_replicate, dropWhile_ws_replicate n hc,
    List.reverse_replicate]

/-- C1: for every text containing the marker "abstract" (case-insensitive)
with some occurrence of "introduction" after the end of the first "abstract",
the Abstract Locator returns exactly the substring strictly between the end of
that first "abstract" and the start of the first later "introduction", trimmed
of leading and trailing whitespace. -/
theorem abstract_locator_between_markers (t : List Char) (i j : Nat)
    (hi : firstOccurFrom abstractMarker (t.map Char.toLower) 0 i)
    (hj : firstOccurFrom introMarker (t.map Char.toLower) (i + 8) j) :
    extract_abstract t = pyStrip ((t.take j).drop (i + 8)) :=
  extract_abstract_between hi hj

/-- Witness for C1 on the spec's own example text. -/
theorem abstract_locator_between_markers_witness :
    firstOccurFrom abstractMarker
      (("Abstract. We present X. Introduction. Prior work".data).map Char.toLower) 0 0 ∧
    firstOccurFrom introMarker
      (("Abstract. We present X. Introduction. Prior work".data).map Char.toLower) 8 24 ∧
    extract_abstract "Abstract. We present X. Introduction. Prior work".data =
      pyStrip ((("Abstract. We present X. Introduction. Prior work".data).take 24).drop 8) :=
  ⟨by decide, by decide,
    abstract_locator_between_markers "Abstract. We present X. Introduction. Prior work".data
      0 24 (by decide) (by decide)⟩

/-- C8: for every text in which the marker "abstract" (case-insensitive)
never occurs, the Abstract Locator returns the fixed sentinel string
"Could not automatically find abstract." -/
theorem abstract_locator_sentinel_when_marker_absent (t : List Char)
    (h : ∀ k, k < t.length → ¬ occursAt abstractMarker (t.map Char.toLower) k) :
    extract_abstract t = sentinelMsg :=
  extract_abstract_sentinel h

/-- Witness for C8. -/
theorem abstract_locator_sentinel_when_marker_absent_witness :
    (∀ k, k < ("no summary section here".data).length →
      ¬ occursAt abstractMarker (("no summary section here".data).map Char.toLower) k) ∧
    extract_abstract "no summary section here".data = sentinelMsg :=
  ⟨by decide,
    abstract_locator_sentinel_when_marker_absent "no summary section here".data (by decide)⟩

/-- C3 as stated fails on the code: "hello world" contains neither marker,
yet the locator returns the sentinel rather than the first 3000 characters of
the text. -/
theorem neither_marker_first3000_counterexample :
    (∀ k, k < ("hello world".data).length →
      ¬ occursAt abstractMarker (("hello world".data).map Char.toLower) k ∧
      ¬ occursAt introMarker (("hello world".data).map Char.toLower) k) ∧
    extract_abstract "hello world".data ≠ ("hello world".data).take 3000 := by
  refine ⟨by decide, by decide⟩

/-- C3 amended: for every text containing neither marker (case-insensitive),
the Abstract Locator returns the fixed sentinel string. -/
theorem abstract_locator_neither_marker (t : List Char)
    (h : ∀ k, k < t.length →
      ¬ occursAt abstractMarker (t.map Char.toLower) k ∧
      ¬ occursAt introMarker (t.map Char.toLower) k) :
    extract_abstract t = sentinelMsg :=
  extract_abstract_sentinel (fun k hk => (h k hk).1)

/-- Witness for the amended C3. -/
theorem abstract_locator_neither_marker_witness :
    (∀ k, k < ("plain body text".data).length →
      ¬ occursAt abstractMarker (("plain body text".data).map Char.toLower) k ∧
      ¬ occursAt introMarker (("plain body text".data).map Char.toLower) k) ∧
    extract_abstract "plain body text".data = sentinelMsg :=
  ⟨by decide, abstract_locator_neither_marker "plain body text".data (by decide)⟩

/-- C9: the locator's marker-search computation is total (each modelled
operation is total on strings), so its result is always the sentinel, the
between-markers substring, or the after-marker substring; the exception
fallback returning the first 3000 characters is unreachable. -/
theorem abstract_locator_result_shapes (t : List Char) :
    (pyFind (t.map Char.toLower) abstractMarker 0 = -1 ∧
      extract_abstract t = sentinelMsg) ∨
    (∃ i j : Nat, pyFind (t.map Char.toLower) abstractMarker 0 = (i : Int) ∧
      pyFind (t.map Char.toLower) introMarker (i : Int) = (j : Int) ∧
      extract_abstract t =
        pyStrip (pySliceI t ((i : Int) + (abstractMarker.length : Int)) (j : Int))) ∨
    (∃ i : Nat, pyFind (t.map Char.toLower) abstractMarker 0 = (i : Int) ∧
      pyFind (t.map Char.toLower) introMarker (i : Int) = -1 ∧
      extract_abstract t =
        pyStrip (pySliceI t ((i : Int) + (abstractMarker.length : Int))
          ((i : Int) + 3000))) := by
  obtain habs | ⟨i, hi⟩ := pyFind_cases (t.map Char.toLower) abstractMarker 0
  · left
    refine ⟨habs, ?_⟩
    simp only [extract_abstract]
    rw [habs]
    simp
  · obtain hintro | ⟨j, hj⟩ := pyFind_cases (t.map Char.toLower) introMarker (i : Int)
    · right; right
      refine ⟨i, hi, hintro, ?_⟩
      simp only [extract_abstract]
      rw [hi, hintro]
      rw [if_neg (by simp)]
      rw [if_pos (by omega)]
    · right; left
      refine ⟨i, j, hi, hj, ?_⟩
      simp only [extract_abstract]
      rw [hi, hj]
      rw [if_pos ⟨by omega, by omega⟩]

theorem bigText_lower :
    bigText.map Char.toLower = abstractMarker ++ (List.replicate 3100 'x' ++ introMarker) := by
  unfold bigText abstractMarker introMarker
  rw [List.map_append, List.map_append, List.map_replicate]
  have h1 : List.map Char.toLower "abstract".data = "abstract".data := by decide
  have h3 : List.map Char.toLower "introduction".data = "introduction".data := by decide
  have h2 : Char.toLower 'x' = 'x' := rfl
  rw [h1, h3, h2]

theorem bigText_first_abstract :
    firstOccurFrom abstractMarker (bigText.map Char.toLower) 0 0 := by
  refine ⟨le_refl 0, ?_, ?_⟩
  · unfold occursAt
    rw [bigText_lower, List.drop_zero]
    exact List.isPrefixOf_iff_prefix.mpr (List.prefix_append _ _)
  · intro d hd hle
    exact absurd hd (by omega)

theorem bigText_first_intro :
    firstOccurFrom introMarker (bigText.map Char.toLower) 8 3108 := by
  refine ⟨by omega, ?_, ?_⟩
  · unfold occursAt
    rw [bigText_lower, ← List.append_assoc]
    rw [List.drop_left' (by rw [List.length_append, List.length_replicate]; decide)]
    exact List.isPrefixOf_iff_prefix.mpr List.prefix_rfl
  · intro d hd hle hocc
    unfold occursAt at hocc
    rw [bigText_lower] at hocc
    obtain ⟨e, he, rfl⟩ : ∃ e, e < 3100 ∧ d = 8 + e := ⟨d - 8, by omega, by omega⟩
    rw [← List.drop_drop] at hocc
    rw [List.drop_left' (by decide : abstractMarker.length = 8)] at hocc
    rw [List.drop_append_of_le_length (by rw [List.length_replicate]; omega)] at hocc
    rw [List.drop_replicate] at hocc
    have h31 : 3100 - e = (3099 - e) + 1 := by omega
    rw [h31, List.replicate_succ, List.cons_append] at hocc
    have hfalse : introMarker.isPrefixOf
        ('x' :: (List.replicate (3099 - e) 'x' ++ introMarker)) = false := rfl
    rw [hfalse] at hocc
    exact Bool.noConfusion hocc

/-- C4 fails on the code: with 3100 non-whitespace characters between the two
markers the locator returns a 3100-character abstract. -/
theorem abstract_length_counterexample :
    3000 < (extract_abstract bigText).length := by
  have hres := extract_abstract_between bigText_first_abstract bigText_first_intro
  rw [Nat.zero_add] at hres
  rw [hres]
  have htake : bigText.take 3108 = "abstract".data ++ List.replicate 3100 'x' := by
    unfold bigText
    rw [← List.append_assoc]
    exact List.take_left' (by rw [List.length_append, List.length_replicate]; decide)
  rw [htake]
  have hdrop : ("abstract".data ++ List.replicate 3100 'x').drop 8 = List.replicate 3100 'x' :=
    List.drop_left' (by decide)
  rw [hdrop]
  rw [pyStrip_replicate (by decide)]
  rw [List.length_replicate]
  omega

/-- C4 amended: whenever the between-markers branch is not taken (no
"introduction" found at or after the first "abstract"), the produced abstract
has length at most 3000. -/
theorem abstract_length_bound_amended (t : List Char)
    (h : ¬ (pyFind (t.map Char.toLower) abstractMarker 0 ≠ -1 ∧
        pyFind (t.map Char.toLower) introMarker
          (pyFind (t.map Char.toLower) abstractMarker 0) ≠ -1)) :
    (extract_abstract t).length ≤ 3000 := by
  simp only [extract_abstract]
  rw [if_neg h]
  by_cases hs : pyFind (t.map Char.toLower) abstractMarker 0 ≠ -1
  · rw [if_pos hs]
    obtain hneg | ⟨si, hsi⟩ := pyFind_cases (t.map Char.toLower) abstractMarker 0
    · exact absurd hneg hs
    · rw [hsi]
      have hc1 : (si : Int) + (abstractMarker.length : Int) = ((si + 8 : Nat) : Int) := by
        have h8 : abstractMarker.length = 8 := rfl
        rw [h8]
        push_cast
        ring
      have hc2 : (si : Int) + 3000 = ((si + 3000 : Nat) : Int) := by push_cast; ring
      rw [hc1, hc2]
      unfold pySliceI
      rw [pyBound_natCast, pyBound_natCast]
      refine le_trans (pyStrip_length_le _) ?_
      rw [List.length_drop, List.length_take]
      omega
  · rw [if_neg hs]
    decide

/-- Witness for the amended C4. -/
theorem abstract_length_bound_amended_witness :
    (¬ (pyFind (("abstract of it".data).map Char.toLower) abstractMarker 0 ≠ -1 ∧
        pyFind (("abstract of it".data).map Char.toLower) introMarker
          (pyFind (("abstract of it".data).map Char.toLower) abstractMarker 0) ≠ -1)) ∧
    (extract_abstract "abstract of it".data).length ≤ 3000 :=
  ⟨by decide, abstract_length_bound_amended "abstract of it".data (by decide)⟩

/-- C2: with a configured client and a well-formed remote response whose
"questions" list has exactly `n` entities of the required shape, quiz
generation returns exactly that list: `n` entities, each with 4 options and
an answer in {A,B,C,D}; nothing partial or malformed is surfaced. -/
theorem quiz_generation_well_formed (text difficulty : List Char) (n : Nat)
    (fields : List (List Char × Json)) (q_list : List Json)
    (hn1 : 1 ≤ n) (hn2 : n ≤ 5)
    (hkey : lookupKey fields questionsKey = some (Json.arr q_list))
    (hlen : q_list.length = n)
    (hvalid : ∀ q ∈ q_list, validQuizQuestion q = true) :
    generate_quiz_from_text true text n difficulty (some (Json.obj fields)) = q_list ∧
    (generate_quiz_from_text true text n difficulty (some (Json.obj fields))).length = n ∧
    ∀ q ∈ generate_quiz_from_text true text n difficulty (some (Json.obj fields)),
      validQuizQuestion q = true := by
  have hgen : generate_quiz_from_text true text n difficulty (some (Json.obj fields)) = q_list := by
    simp only [generate_quiz_from_text, hkey]
    rfl
  refine ⟨hgen, ?_, ?_⟩
  · rw [hgen, hlen]
  · intro q hq
    rw [hgen] at hq
    exact hvalid q hq

/-- Witness for C2. -/
theorem quiz_generation_well_formed_witness :
    (1 ≤ 1 ∧ (1 : Nat) ≤ 5 ∧
      lookupKey [(questionsKey, Json.arr [sampleQuestion])] questionsKey =
        some (Json.arr [sampleQuestion]) ∧
      ([sampleQuestion] : List Json).length = 1 ∧
      ∀ q ∈ [sampleQuestion], validQuizQuestion q = true) ∧
    generate_quiz_from_text true "the text".data 1 "easy".data
      (some (Json.obj [(questionsKey, Json.arr [sampleQuestion])])) = [sampleQuestion] :=
  ⟨⟨by decide, by decide, rfl, rfl, by decide⟩,
    (quiz_generation_well_formed "the text".data "easy".data 1
      [(questionsKey, Json.arr [sampleQuestion])] [sampleQuestion]
      (by decide) (by decide) rfl rfl (by decide)).1⟩

/-- C5: on any structural failure (parse failure, missing key, non-sequence
value) the parser returns an empty sequence, and the handler renders an empty
sequence together with a non-null error message; no exception crosses the
boundary (the embedding is total). -/
theorem structural_failure_yields_empty (text difficulty : List Char) (n m : Nat)
    (r1 r2 : Option Json)
    (h1 : quizStructuralFailure r1 = true)
    (h2 : flashcardStructuralFailure r2 = true) :
    generate_quiz_from_text true text n difficulty r1 = [] ∧
    (get_quiz_questions true text difficulty n r1).questions = [] ∧
    (get_quiz_questions true text difficulty n r1).error = some quizErrorMsg ∧
    generate_flashcards_from_text true text m r2 = [] ∧
    (get_flashcards true text m r2).flashcards = [] ∧
    (get_flashcards true text m r2).error = some flashcardErrorMsg := by
  have hq : generate_quiz_from_text true text n difficulty r1 = [] := by
    unfold generate_quiz_from_text
    rw [if_neg (by simp)]
    rcases r1 with _ | j
    · rfl
    · rcases j with _ | b | k | s | l | fields
      · rfl
      · rfl
      · rfl
      · rfl
      · rfl
      · unfold quizStructuralFailure at h1
        cases hlk : lookupKey fields questionsKey with
        | none => simp [hlk]
        | some v =>
          rcases v with _ | b | k | s | l | f2
          · simp [hlk]
          · simp [hlk]
          · simp [hlk]
          · simp [hlk]
          · simp [hlk] at h1
          · simp [hlk]
  have hf : generate_flashcards_from_text true text m r2 = [] := by
    unfold generate_flashcards_from_text
    rw [if_neg (by simp)]
    rcases r2 with _ | j
    · rfl
    · rcases j with _ | b | k | s | l | fields
      · rfl
      · rfl
      · rfl
      · rfl
      · rfl
      · unfold flashcardStructuralFailure at h2
        cases hlk : lookupKey fields flashcardsKey with
        | none => simp [hlk]
        | some v =>
          rcases v with _ | b | k | s | l | f2
          · simp [hlk]
          · simp [hlk]
          · simp [hlk]
          · simp [hlk]
          · simp [hlk] at h2
          · simp [hlk]
  refine ⟨hq, ?_, ?_, hf, ?_, ?_⟩ <;>
    simp [get_quiz_questions, get_flashcards, hq, hf]

/-- Witness for C5. -/
theorem structural_failure_yields_empty_witness :
    (quizStructuralFailure none = true ∧ flashcardStructuralFailure none = true) ∧
    generate_quiz_from_text true "t".data 3 "medium".data none = [] :=
  ⟨⟨rfl, rfl⟩,
    (structural_failure_yields_empty "t".data "medium".data 3 5 none none rfl rfl).1⟩

/-- C6: with no configured client every generation operation short-circuits:
the summary is the fixed configuration-error placeholder and quiz/flashcard
generation return the empty sequence, for every possible remote response —
the outcome does not depend on the network at all. -/
theorem no_client_short_circuit (raw_abstract text difficulty : List Char)
    (remote : Except (List Char) (List Char)) (n m : Nat) (r1 r2 : Option Json) :
    computeSummary false remote raw_abstract = noClientSummaryMsg ∧
    generate_quiz_from_text false text n difficulty r1 = [] ∧
    generate_flashcards_from_text false text m r2 = [] :=
  ⟨rfl, rfl, rfl⟩

/-- C7: the temporary file is deleted before the upload handler returns, on
every exit path; in particular a file whose text extraction fails (a non-PDF)
yields a redirect and leaves no artifact. -/
theorem upload_temp_file_always_deleted (filename : List Char)
    (writeOk tempCreatedOnFailedWrite : Bool) (extracted : Option (List Char))
    (clientOk : Bool) (remote : Except (List Char) (List Char)) :
    (upload_paper filename writeOk tempCreatedOnFailedWrite extracted clientOk remote).2 =
      false ∧
    upload_paper filename true tempCreatedOnFailedWrite none clientOk remote =
      (UploadResponse.redirectHome, false) := by
  constructor
  · cases writeOk <;> cases tempCreatedOnFailedWrite <;> cases extracted <;> rfl
  · rfl

/-- C10: in every rendered quiz or flashcard view the error message is
non-null exactly when the entity sequence is empty; a successful well-formed
response carrying an empty sequence is rendered as a generation failure. -/
theorem view_error_iff_empty (clientOk : Bool) (text difficulty : List Char)
    (n m : Nat) (r1 r2 : Option Json) :
    ((get_quiz_questions clientOk text difficulty n r1).error ≠ none ↔
      (get_quiz_questions clientOk text difficulty n r1).questions = []) ∧
    ((get_flashcards clientOk text m r2).error ≠ none ↔
      (get_flashcards clientOk text m r2).flashcards = []) ∧
    (get_quiz_questions true text difficulty n
      (some (Json.obj [(questionsKey, Json.arr [])]))).error = some quizErrorMsg ∧
    (get_flashcards true text m
      (some (Json.obj [(flashcardsKey, Json.arr [])]))).error = some flashcardErrorMsg := by
  refine ⟨?_, ?_, rfl, rfl⟩
  · cases hq : (generate_quiz_from_text clientOk text n difficulty r1).isEmpty with
    | true =>
      have hnil := List.isEmpty_iff.mp hq
      simp [get_quiz_questions, hq, hnil]
    | false =>
      have hne : generate_quiz_from_text clientOk text n difficulty r1 ≠ [] := by
        intro hnil
        rw [hnil] at hq
        exact Bool.noConfusion hq
      simp [get_quiz_questions, hq, hne]
  · cases hf : (generate_flashcards_from_text clientOk text m r2).isEmpty with
    | true =>
      have hnil := List.isEmpty_iff.mp hf
      simp [get_flashcards, hf, hnil]
    | false =>
      have hne : generate_flashcards_from_text clientOk text m r2 ≠ [] := by
        intro hnil
        rw [hnil] at hf
        exact Bool.noConfusion hf
      simp [get_flashcards, hf, hne]

end ResearchSimplifier
